import Mathlib

/-!
Verification development for the swaybgplus virtual-canvas compositing engine.

The definitions below are a shallow embedding of the Python sources:
`src/swaybgplus/background_manager.py`, `src/swaybgplus/sway_config_parser.py`,
`src/swaybgplus/gui.py` and `src/swaybgplus/cli.py`.  Python integers are
modelled as `Int`/`Nat` (Python `//` is `Int.fdiv`, Python `int()` on a float
truncates toward zero), floats as `ℚ`, images as pixel functions, and the
effectful parts (file writes, swaymsg invocations) as explicit operation
traces or oracle-parameterised pure functions.
-/

/-- One pixel, an RGB triple as produced by PIL `Image.new('RGB', ...)`. -/
abbrev Pixel := Nat × Nat × Nat

/-- Solid black, the fill colour `(0, 0, 0)` used for fresh canvases. -/
def blackPixel : Pixel := (0, 0, 0)

/-- An in-memory image: dimensions plus a pixel lookup function. -/
structure Img where
  width : Nat
  height : Nat
  pix : Nat → Nat → Pixel

/-- A per-output raster produced by the compositor. -/
structure Raster where
  width : Nat
  height : Nat
  pix : Nat → Nat → Pixel

/-- Embedding of the `OutputConfig` dataclass of `sway_config_parser.py`. -/
structure OutputConfig where
  name : String
  position : Int × Int
  resolution : Nat × Nat
  scale : ℚ
  transform : String
  enabled : Bool
  available_modes : List (Nat × Nat)

/-- Python `int()` applied to a rational: truncation toward zero. -/
def pyInt (q : ℚ) : Int :=
  if q < 0 then -(Int.floor (-q)) else Int.floor q

/-- A Python whitespace character, as stripped by `str.strip()`. -/
def isSpaceChar (c : Char) : Bool :=
  c == ' ' || c == '\t' || c == '\n' || c == '\r' || c == '\x0b' || c == '\x0c'

/-- Python `str.strip()`: remove leading and trailing whitespace. -/
def pyStrip (s : String) : String :=
  ⟨((s.data.dropWhile isSpaceChar).reverse.dropWhile isSpaceChar).reverse⟩

/-- Python `str.startswith(pre)`. -/
def pyStartsWith (s pre : String) : Bool :=
  pre.data.isPrefixOf s.data

/-- Python `str.endswith(suf)`. -/
def pyEndsWith (s suf : String) : Bool :=
  suf.data.isSuffixOf s.data

/-- Embedding of `BackgroundManager.get_effective_resolution`: resolution
with width and height swapped for the 90/270-degree transform variants. -/
def get_effective_resolution (o : OutputConfig) : Nat × Nat :=
  if o.transform ∈ ["90", "270", "flipped-90", "flipped-270"] then
    (o.resolution.2, o.resolution.1)
  else
    (o.resolution.1, o.resolution.2)

/-- Minimum of `position.x` over a non-empty output list, as computed by
`min(output.position[0] for output in outputs)`. -/
def topoMinX (o0 : OutputConfig) (rest : List OutputConfig) : Int :=
  rest.foldl (fun a o => min a o.position.1) o0.position.1

/-- Minimum of `position.y` over a non-empty output list. -/
def topoMinY (o0 : OutputConfig) (rest : List OutputConfig) : Int :=
  rest.foldl (fun a o => min a o.position.2) o0.position.2

/-- Maximum of `position.x + effective_width` over a non-empty output list. -/
def topoMaxX (o0 : OutputConfig) (rest : List OutputConfig) : Int :=
  rest.foldl (fun a o => max a (o.position.1 + (get_effective_resolution o).1))
    (o0.position.1 + (get_effective_resolution o0).1)

/-- Maximum of `position.y + effective_height` over a non-empty output list. -/
def topoMaxY (o0 : OutputConfig) (rest : List OutputConfig) : Int :=
  rest.foldl (fun a o => max a (o.position.2 + (get_effective_resolution o).2))
    (o0.position.2 + (get_effective_resolution o0).2)

/-- The scaled dimensions `int(width * image_scale)`, `int(height * image_scale)`
computed by `create_individual_backgrounds` before resizing. -/
def scaledDims (img : Img) (image_scale : ℚ) : Nat × Nat :=
  ((pyInt ((img.width : ℚ) * image_scale)).toNat,
   (pyInt ((img.height : ℚ) * image_scale)).toNat)

/-- Model of PIL `Image.resize((w, h), LANCZOS)`.  Resizing an image to its
own dimensions is the identity (the Lanczos kernel is interpolating: sampled
on the aligned integer grid the only non-zero coefficient is the source pixel
itself).  For other target sizes the pixel values are resampled; the claims
never inspect pixel values at a non-identity size, so the resampling is
modelled by coordinate scaling, while the dimensions are exact. -/
def resizeImg (img : Img) (w h : Nat) : Img :=
  if w = img.width ∧ h = img.height then img
  else
    { width := w, height := h,
      pix := fun x y => img.pix (x * img.width / w) (y * img.height / h) }

/-- Embedding of the per-output body of the loop in
`BackgroundManager.create_individual_backgrounds` (background_manager.py
lines 219-255): a black canvas of the output's effective size, with the
intersecting part of the resized image pasted through the clipping
arithmetic of the source. -/
def outputRaster (resized : Img) (canvas_width canvas_height : Int)
    (image_offset : Int × Int) (min_x min_y : Int) (o : OutputConfig) : Raster :=
  let effW : Nat := (get_effective_resolution o).1
  let effH : Nat := (get_effective_resolution o).2
  let crop_x : Int := o.position.1 - min_x
  let crop_y : Int := o.position.2 - min_y
  let scaledW : Int := (resized.width : Int)
  let scaledH : Int := (resized.height : Int)
  let img_x : Int := Int.fdiv (canvas_width - scaledW) 2 + image_offset.1 - crop_x
  let img_y : Int := Int.fdiv (canvas_height - scaledH) 2 + image_offset.2 - crop_y
  if img_x < (effW : Int) ∧ img_y < (effH : Int) ∧
      img_x + scaledW > 0 ∧ img_y + scaledH > 0 then
    let src_x : Int := max 0 (-img_x)
    let src_y : Int := max 0 (-img_y)
    let dst_x : Int := max 0 img_x
    let dst_y : Int := max 0 img_y
    let copy_width : Int := min (scaledW - src_x) ((effW : Int) - dst_x)
    let copy_height : Int := min (scaledH - src_y) ((effH : Int) - dst_y)
    if copy_width > 0 ∧ copy_height > 0 then
      { width := effW, height := effH,
        pix := fun x y =>
          if dst_x ≤ (x : Int) ∧ (x : Int) < dst_x + copy_width ∧
              dst_y ≤ (y : Int) ∧ (y : Int) < dst_y + copy_height then
            resized.pix (src_x + ((x : Int) - dst_x)).toNat
              (src_y + ((y : Int) - dst_y)).toNat
          else blackPixel }
    else { width := effW, height := effH, pix := fun _ _ => blackPixel }
  else { width := effW, height := effH, pix := fun _ _ => blackPixel }

/-- Embedding of `BackgroundManager.create_individual_backgrounds`: raises
`ValueError("No outputs provided")` on an empty list, otherwise computes the
virtual-canvas bounds from the effective resolutions of all outputs in the
list, resizes the source image by `image_scale`, and produces one raster per
output (regardless of the `enabled` flag, which the function never reads). -/
def create_individual_backgrounds (img : Img) (outputs : List OutputConfig)
    (image_offset : Int × Int) (image_scale : ℚ) :
    Except String (List (String × Raster)) :=
  match outputs with
  | [] => .error "No outputs provided"
  | o0 :: rest =>
    let min_x := topoMinX o0 rest
    let min_y := topoMinY o0 rest
    let max_x := topoMaxX o0 rest
    let max_y := topoMaxY o0 rest
    let canvas_width := max_x - min_x
    let canvas_height := max_y - min_y
    let sw := (scaledDims img image_scale).1
    let sh := (scaledDims img image_scale).2
    let resized := resizeImg img sw sh
    .ok ((o0 :: rest).map (fun o =>
      (o.name, outputRaster resized canvas_width canvas_height image_offset min_x min_y o)))

/-- The raster placement described by the specification for stretch mode:
the resized image sits on the virtual canvas at
`imgX = (canvasW − scaledW) // 2 + offset.x` (floor division, as in Python),
`imgY` analogously; the output's canvas rectangle has origin
`(position − (minX, minY))`; the raster pixel at `(x, y)` is the image pixel
under the intersection of the two rectangles and black elsewhere. -/
def specStretchRaster (resized : Img) (canvas_width canvas_height : Int)
    (min_x min_y : Int) (image_offset : Int × Int) (o : OutputConfig) : Raster :=
  let effW : Nat := (get_effective_resolution o).1
  let effH : Nat := (get_effective_resolution o).2
  let imgX : Int := Int.fdiv (canvas_width - (resized.width : Int)) 2 + image_offset.1
  let imgY : Int := Int.fdiv (canvas_height - (resized.height : Int)) 2 + image_offset.2
  let ox : Int := o.position.1 - min_x
  let oy : Int := o.position.2 - min_y
  { width := effW, height := effH,
    pix := fun x y =>
      if (x : Int) < (effW : Int) ∧ (y : Int) < (effH : Int) ∧
          imgX ≤ ox + (x : Int) ∧ ox + (x : Int) < imgX + (resized.width : Int) ∧
          imgY ≤ oy + (y : Int) ∧ oy + (y : Int) < imgY + (resized.height : Int) then
        resized.pix (ox + (x : Int) - imgX).toNat (oy + (y : Int) - imgY).toNat
      else blackPixel }

theorem outputRaster_eq_spec (resized : Img) (cw ch : Int)
    (off : Int × Int) (mx my : Int) (o : OutputConfig) :
    outputRaster resized cw ch off mx my o = specStretchRaster resized cw ch mx my off o := by
  unfold outputRaster specStretchRaster
  dsimp only
  generalize Int.fdiv (cw - (resized.width : Int)) 2 = K
  generalize Int.fdiv (ch - (resized.height : Int)) 2 = L
  split_ifs with h1 h2 <;>
    refine congrArg (Raster.mk _ _) ?_ <;>
    funext x y <;>
    split_ifs with h3 <;>
    first
      | rfl
      | omega
      | (congr 1 <;> omega)

/-- Embedding of `SwayConfigParser.get_total_screen_bounds`: for an empty
output list it returns the default bounds `(0, 0, 1920, 1080)`; otherwise the
min/max of positions and `position + resolution` (raw resolution, without the
transform swap). -/
def get_total_screen_bounds (outputs : List OutputConfig) : Int × Int × Int × Int :=
  match outputs with
  | [] => (0, 0, 1920, 1080)
  | o0 :: rest =>
    (rest.foldl (fun a o => min a o.position.1) o0.position.1,
     rest.foldl (fun a o => min a o.position.2) o0.position.2,
     rest.foldl (fun a o => max a (o.position.1 + o.resolution.1))
       (o0.position.1 + (o0.resolution.1 : Int)),
     rest.foldl (fun a o => max a (o.position.2 + o.resolution.2))
       (o0.position.2 + (o0.resolution.2 : Int)))

/-- Embedding of the fill-branch scale in `MonitorWidget.on_draw` (gui.py):
`scale = max(monW / imgW, monH / imgH) * image_scale`. -/
def on_draw_fill_scale (imgW imgH monW monH image_scale : ℚ) : ℚ :=
  max (monW / imgW) (monH / imgH) * image_scale

/-- Embedding of the fill-branch source placement in `MonitorWidget.on_draw`:
`offset_x_calc = (monitor_width - scaled_width) / 2 - image_offset[0]` and
analogously for y, with `scaled_width = img_width * scale`. -/
def on_draw_fill_offset_calc (imgW imgH monW monH image_scale : ℚ)
    (image_offset : ℚ × ℚ) : ℚ × ℚ :=
  let scale := on_draw_fill_scale imgW imgH monW monH image_scale
  ((monW - imgW * scale) / 2 - image_offset.1,
   (monH - imgH * scale) / 2 - image_offset.2)

/-- The point of monitor space (in monitor pixels, before the widget's
display transform) at which image point `(px, py)` is drawn by the cairo
call sequence `cr.scale(scale, scale)` followed by
`cr.set_source_surface(surface, ox / scale, oy / scale)`. -/
def cairo_place_source (scale ox oy px py : ℚ) : ℚ × ℚ :=
  (scale * (px + ox / scale), scale * (py + oy / scale))

/-- Where image point `(px, py)` lands on the monitor in the fill branch of
`MonitorWidget.on_draw`. -/
def on_draw_fill_point (imgW imgH monW monH image_scale : ℚ)
    (image_offset : ℚ × ℚ) (px py : ℚ) : ℚ × ℚ :=
  let scale := on_draw_fill_scale imgW imgH monW monH image_scale
  let oc := on_draw_fill_offset_calc imgW imgH monW monH image_scale image_offset
  cairo_place_source scale oc.1 oc.2 px py

/-- The saved placement record as read back by `load_background_config`:
a JSON object whose keys are each optional (read with `dict.get`). -/
structure SavedConfigJson where
  image_path : Option String
  mode : Option String
  image_offset : Option (Int × Int)
  image_scale : Option ℚ

/-- The compositor invocation issued by `restore_background`: the stored
parameters are re-fed through `set_background_stretched` or
`set_background_fitted` with `outputs = None`, which makes those functions
fetch the current topology via `get_current_outputs()`. -/
inductive RestoreInvocation where
  | stretched (image_path : String) (image_offset : Int × Int) (image_scale : ℚ)
      (outputs : List OutputConfig)
  | fitted (image_path : String) (mode : String) (image_offset : Int × Int)
      (image_scale : ℚ) (outputs : List OutputConfig)

/-- Embedding of `BackgroundManager.restore_background`.  `none` models the
early `return False` paths (no saved config; `not image_path`, i.e. a missing
or empty path; `os.path.exists` false), on which no compositor entry point is
invoked.  `fileExists` is the oracle for `os.path.exists`, and
`current_outputs` is what `get_current_outputs()` returns at restore time. -/
def restore_background (cfg : Option SavedConfigJson) (fileExists : String → Bool)
    (current_outputs : List OutputConfig) : Option RestoreInvocation :=
  match cfg with
  | none => none
  | some c =>
    let mode := c.mode.getD "stretched"
    let image_offset := c.image_offset.getD (0, 0)
    let image_scale := c.image_scale.getD 1
    match c.image_path with
    | none => none
    | some p =>
      if p = "" then none
      else if fileExists p then
        if mode = "stretched" then
          some (.stretched p image_offset image_scale current_outputs)
        else
          some (.fitted p mode image_offset image_scale current_outputs)
      else none

/-- A primitive file-system operation, used to model the write discipline of
`save_background_config`. -/
inductive FsOp where
  | openTrunc : String → FsOp
  | writeData : String → String → FsOp

/-- Effect of one operation on a file-system state (path to contents). -/
def applyFsOp (fs : String → Option String) (op : FsOp) : String → Option String :=
  match op with
  | .openTrunc p => fun q => if q = p then some "" else fs q
  | .writeData p d => fun q => if q = p then (fs p).map (fun s => s ++ d) else fs q

/-- Run a list of file-system operations in order. -/
def runFsOps (fs : String → Option String) (ops : List FsOp) : String → Option String :=
  ops.foldl applyFsOp fs

/-- The operation trace of `BackgroundManager.save_background_config`:
`open(config_file, 'w')` truncates `current_config.json` in place, then
`json.dump` writes the serialized record (`json` is the serialized text;
the JSON encoding itself is not modelled).  There is no temporary file and
no rename. -/
def save_background_config_ops (json : String) : List FsOp :=
  [FsOp.openTrunc "current_config.json", FsOp.writeData "current_config.json" json]

/-- Embedding of the loop in `SwayBGPlusGUI.on_apply_monitor_config`:
`apply_output_config` (modelled by the oracle `applyOk`) is called on each
output in order; on the first failure the handler shows an error dialog and
returns, leaving the remaining outputs unprocessed.  The result is the list
of output names for which an apply was attempted, and whether the loop ran
to completion. -/
def on_apply_monitor_config (applyOk : OutputConfig → Bool) :
    List OutputConfig → List String × Bool
  | [] => ([], true)
  | o :: rest =>
    if applyOk o then
      let r := on_apply_monitor_config applyOk rest
      (o.name :: r.1, r.2)
    else ([o.name], false)

/-- Embedding of the orientation-apply loop in `cli.py` `main`: outputs whose
name is in the orientation map are applied in order; the first failure prints
an error and calls `sys.exit(1)`, skipping all remaining outputs. -/
def cli_apply_orientations (applyOk : OutputConfig → Bool) (inMap : String → Bool) :
    List OutputConfig → List String × Bool
  | [] => ([], true)
  | o :: rest =>
    if inMap o.name then
      if applyOk o then
        let r := cli_apply_orientations applyOk inMap rest
        (o.name :: r.1, r.2)
      else ([o.name], false)
    else cli_apply_orientations applyOk inMap rest

/-- The sentinel comment delimiting the tool-managed section of the sway
config file in `SwayConfigParser.save_config_file`. -/
def sentinelLine : String := "# Output configurations (updated by SwayBG+)"

/-- Embedding of the line-filtering state machine of
`SwayConfigParser.save_config_file` (lines 256-282): the Boolean argument is
the `skip_section` flag.  The sentinel starts skipping; inside the skipped
section `output` lines and blank lines are dropped and any other line ends
the section; outside the section every line that (after `strip`) starts with
`output ` is also dropped. -/
def filter_config_lines : Bool → List String → List String
  | _, [] => []
  | skip_section, line :: rest =>
    let s := pyStrip line
    if s = sentinelLine then filter_config_lines true rest
    else if skip_section then
      if pyStartsWith s "output " then filter_config_lines true rest
      else if s = "" then filter_config_lines true rest
      else line :: filter_config_lines false rest
    else
      if pyStartsWith s "output " then filter_config_lines false rest
      else line :: filter_config_lines false rest

/-- The `output ...` line rendered for one output by `save_config_file`
(lines 288-300).  `showScale` renders the float `output.scale` the way
Python's f-string does; float formatting is not modelled, so it is a
parameter. -/
def render_output_line (showScale : ℚ → String) (o : OutputConfig) : String :=
  if o.enabled then
    "output " ++ o.name ++ " res " ++ toString o.resolution.1 ++ "x" ++
      toString o.resolution.2 ++ " pos " ++ toString o.position.1 ++ " " ++
      toString o.position.2 ++ " scale " ++ showScale o.scale ++
      (if o.transform ≠ "normal" then " transform " ++ o.transform else "")
  else "output " ++ o.name ++ " disable"

/-- The full line list written by `SwayConfigParser.save_config_file`:
the filtered prior content, a blank line, the sentinel, and one rendered
line per output in `self.outputs`. -/
def save_config_lines (showScale : ℚ → String) (content_lines : List String)
    (outputs : List OutputConfig) : List String :=
  filter_config_lines false content_lines ++ ["", sentinelLine] ++
    outputs.map (render_output_line showScale)

/-- A config-file-level operation used to model `save_config_file`'s
interaction with the file system. -/
inductive CfgOp where
  | copyFile : String → String → CfgOp
  | writeAll : String → String → CfgOp

/-- The operation trace of `save_config_file` with `backup=True` and an
existing config file: `shutil.copy2(config_path, config_path + ".backup")`
first, then the rewrite of `config_path` itself. -/
def save_config_file_ops (config_path : String) (new_content : String) : List CfgOp :=
  [CfgOp.copyFile config_path (config_path ++ ".backup"),
   CfgOp.writeAll config_path new_content]

/-- The file filter of `BackgroundManager.cleanup`: files whose name ends in
`.png`, `.jpg` or `.jpeg` and is not `current_config.json`. -/
def isBackgroundFile (f : String) : Bool :=
  (pyEndsWith f ".png" || pyEndsWith f ".jpg" || pyEndsWith f ".jpeg") &&
    !(f == "current_config.json")

/-- The image files of a directory listing, as collected by `cleanup`.
A directory entry is a `(name, mtime)` pair. -/
def cleanup_files (entries : List (String × Nat)) : List (String × Nat) :=
  entries.filter (fun e => isBackgroundFile e.1)

/-- The image files sorted by modification time, newest first
(`files.sort(key=lambda x: x[1], reverse=True)`; Python's sort and
`List.mergeSort` are both stable). -/
def cleanup_sorted (entries : List (String × Nat)) : List (String × Nat) :=
  (cleanup_files entries).mergeSort (fun a b => decide (b.2 ≤ a.2))

/-- The entries on which `cleanup` attempts `os.unlink` (everything beyond
the newest five image files). -/
def cleanup_attempted (entries : List (String × Nat)) : List (String × Nat) :=
  (cleanup_sorted entries).drop 5

/-- The directory contents after `cleanup`: an entry disappears exactly when
`cleanup` attempted to delete it and the deletion succeeded (`delete_ok`
models `os.unlink` not raising; failures are swallowed by the inner
`except Exception: pass`). -/
def cleanup_result (delete_ok : String → Bool) (entries : List (String × Nat)) :
    List (String × Nat) :=
  entries.filter (fun e =>
    !(decide (e ∈ cleanup_attempted entries) && delete_ok e.1))

/-- Output A of the spec's two-monitor example scenario. -/
def outA : OutputConfig :=
  { name := "A", position := (0, 0), resolution := (1920, 1080), scale := 1,
    transform := "normal", enabled := true, available_modes := [] }

/-- Output B of the spec's two-monitor example scenario. -/
def outB : OutputConfig :=
  { name := "B", position := (1920, 0), resolution := (1920, 1080), scale := 1,
    transform := "normal", enabled := true, available_modes := [] }

/-- A disabled output, used for the disabled-topology scenarios. -/
def outCdisabled : OutputConfig :=
  { name := "C", position := (1920, 0), resolution := (1920, 1080), scale := 1,
    transform := "normal", enabled := false, available_modes := [] }

/-- An output rotated by 90 degrees. -/
def outR90 : OutputConfig :=
  { name := "R", position := (0, 0), resolution := (1920, 1080), scale := 1,
    transform := "90", enabled := true, available_modes := [] }

/-- A 3840x1080 source image with an arbitrary pixel function. -/
def srcImg (f : Nat → Nat → Pixel) : Img :=
  { width := 3840, height := 1080, pix := f }

/-- The pixel of raster number `i` of a composition result at `(x, y)`. -/
def rasterPixAt (r : Except String (List (String × Raster))) (i x y : Nat) :
    Option Pixel :=
  (r.toOption.bind (fun l => l[i]?)).map (fun p => p.2.pix x y)

/-- C4: `get_effective_resolution` returns the resolution unchanged for the
transforms normal, 180, flipped and flipped-180, and swaps width and height
for 90, 270, flipped-90 and flipped-270; the virtual-canvas bound helpers
used by `create_individual_backgrounds` therefore see an output with
transform "90" and resolution (1920, 1080) as a 1080-wide, 1920-tall
rectangle. -/
theorem effective_resolution_transform_swap :
    (∀ (o : OutputConfig), o.transform ∈ ["normal", "180", "flipped", "flipped-180"] →
      get_effective_resolution o = o.resolution) ∧
    (∀ (o : OutputConfig), o.transform ∈ ["90", "270", "flipped-90", "flipped-270"] →
      get_effective_resolution o = (o.resolution.2, o.resolution.1)) ∧
    (get_effective_resolution outR90 = (1080, 1920) ∧
      topoMinX outR90 [] = 0 ∧ topoMinY outR90 [] = 0 ∧
      topoMaxX outR90 [] = 1080 ∧ topoMaxY outR90 [] = 1920) := by
  refine ⟨?_, ?_, by decide, by decide, by decide, by decide, by decide⟩
  · intro o h
    simp only [List.mem_cons, List.not_mem_nil, or_false] at h
    unfold get_effective_resolution
    rcases h with h | h | h | h <;>
      rw [if_neg (by rw [h]; decide)]
  · intro o h
    simp only [List.mem_cons, List.not_mem_nil, or_false] at h
    unfold get_effective_resolution
    rcases h with h | h | h | h <;>
      rw [if_pos (by rw [h]; decide)]

/-- Witness for C4 at the concrete outputs of the example scenarios. -/
theorem effective_resolution_transform_swap_witness :
    get_effective_resolution outA = outA.resolution ∧
    get_effective_resolution outR90 = (outR90.resolution.2, outR90.resolution.1) :=
  ⟨effective_resolution_transform_swap.1 outA (by decide),
   effective_resolution_transform_swap.2.1 outR90 (by decide)⟩

/-- C2 counterexample: with no outputs, `get_total_screen_bounds` silently
returns the default bounds (0, 0, 1920, 1080) instead of failing, and a
topology consisting only of a disabled output is composed without error
(the enabled flag is never consulted), contradicting the claim that both
computations fail whenever there is no enabled output. -/
theorem empty_topology_default_bounds_cex :
    get_total_screen_bounds [] = (0, 0, 1920, 1080) ∧
    (create_individual_backgrounds (srcImg (fun _ _ => blackPixel))
      [outCdisabled] (0, 0) 1).isOk = true :=
  ⟨rfl, rfl⟩

/-- C2 amended: only composing over an empty output list fails (with
`ValueError("No outputs provided")`); `get_total_screen_bounds` never fails
and yields the default bounds (0, 0, 1920, 1080) on an empty list, and a
non-empty list of disabled outputs is composed normally. -/
theorem empty_topology_behaviour :
    (∀ (img : Img) (off : Int × Int) (s : ℚ),
      create_individual_backgrounds img [] off s = .error "No outputs provided") ∧
    get_total_screen_bounds [] = (0, 0, 1920, 1080) ∧
    (∀ (img : Img) (off : Int × Int) (s : ℚ),
      (create_individual_backgrounds img [outCdisabled] off s).isOk = true) :=
  ⟨fun _ _ _ => rfl, rfl, fun _ _ _ => rfl⟩

/-- C3 counterexample: composing the topology [A enabled, C disabled] yields
a raster for the disabled output C, and C's geometry extends the canvas
bound from 1920 to 3840 — disabled outputs are not excluded. -/
theorem disabled_output_not_excluded_cex :
    (create_individual_backgrounds (srcImg (fun _ _ => blackPixel))
        [outA, outCdisabled] (0, 0) 1).toOption.map (fun l => l.map Prod.fst)
      = some ["A", "C"] ∧
    topoMaxX outA [outCdisabled] = 3840 ∧ topoMaxX outA [] = 1920 := by
  refine ⟨rfl, by decide, by decide⟩

/-- C3 amended: `create_individual_backgrounds` never reads the `enabled`
flag — every output in the list it is given receives a raster (the returned
names are exactly the input names, in order) and contributes to the canvas
bounds; exclusion of inactive outputs happens only upstream, in
`get_current_outputs`, which skips outputs that sway reports as not active. -/
theorem composition_rasters_all_outputs :
    ∀ (img : Img) (outputs : List OutputConfig) (off : Int × Int) (s : ℚ)
      (r : List (String × Raster)),
      create_individual_backgrounds img outputs off s = .ok r →
      r.map Prod.fst = outputs.map OutputConfig.name := by
  intro img outputs off s r h
  cases outputs with
  | nil => simp [create_individual_backgrounds] at h
  | cons o0 rest =>
    simp only [create_individual_backgrounds, Except.ok.injEq] at h
    subst h
    simp [List.map_map, Function.comp]

/-- Witness for the amended C3 at a concrete composition. -/
theorem composition_rasters_all_outputs_witness :
    (create_individual_backgrounds (srcImg (fun _ _ => blackPixel))
        [outA, outCdisabled] (0, 0) 1).toOption.map (fun l => l.map Prod.fst)
      = some ([outA, outCdisabled].map OutputConfig.name) := by
  cases hc : create_individual_backgrounds (srcImg (fun _ _ => blackPixel))
      [outA, outCdisabled] (0, 0) 1 with
  | error e => exact absurd hc (by simp [create_individual_backgrounds])
  | ok r =>
    have hr := composition_rasters_all_outputs _ _ _ _ _ hc
    simp [Except.toOption, hr]

theorem scaledDims_src (f : Nat → Nat → Pixel) : scaledDims (srcImg f) 1 = (3840, 1080) := by
  norm_num [scaledDims, pyInt, srcImg]
  omega

theorem specStretchRaster_leftA (f : Nat → Nat → Pixel) (x y : Nat)
    (hx : x < 1920) (hy : y < 1080) :
    (specStretchRaster (srcImg f) (3840 - 0) (1080 - 0) 0 0 (0, 0) outA).pix x y
      = f x y := by
  unfold specStretchRaster
  simp +decide only [srcImg, outA, get_effective_resolution]
  norm_num [Int.zero_fdiv]
  intro hc
  exact absurd (hc hx hy (by omega)) (by omega)

theorem specStretchRaster_rightB (f : Nat → Nat → Pixel) (x y : Nat)
    (hx : x < 1920) (hy : y < 1080) :
    (specStretchRaster (srcImg f) (3840 - 0) (1080 - 0) 0 0 (0, 0) outB).pix x y
      = f (1920 + x) y := by
  unfold specStretchRaster
  simp +decide only [srcImg, outB, get_effective_resolution]
  norm_num [Int.zero_fdiv]
  rw [if_pos (by omega)]
  congr 1

/-- C1: stretch-mode compositing.  First part: for every non-empty topology,
`create_individual_backgrounds` produces, for each output in order, exactly
the raster described by the spec — the resized image placed on the virtual
canvas at `imgX = (canvasW − scaledW) // 2 + offset.x` (floor division),
`imgY` analogously, cropped to the intersection with the output's canvas
rectangle, pasted at the corresponding position in a raster of the output's
effective size, with the uncovered remainder solid black.  Second part: in
the two-1920x1080-output example with a 3840x1080 source, offset (0, 0) and
scale 1.0, output A's raster is the left half of the source and output B's
raster is the right half. -/
theorem stretch_mode_compositing :
    (∀ (img : Img) (o0 : OutputConfig) (rest : List OutputConfig)
        (off : Int × Int) (s : ℚ),
      create_individual_backgrounds img (o0 :: rest) off s =
        .ok ((o0 :: rest).map (fun o =>
          (o.name,
            specStretchRaster
              (resizeImg img (scaledDims img s).1 (scaledDims img s).2)
              (topoMaxX o0 rest - topoMinX o0 rest)
              (topoMaxY o0 rest - topoMinY o0 rest)
              (topoMinX o0 rest) (topoMinY o0 rest) off o)))) ∧
    (∀ (f : Nat → Nat → Pixel) (x y : Nat), x < 1920 → y < 1080 →
      rasterPixAt (create_individual_backgrounds (srcImg f) [outA, outB] (0, 0) 1) 0 x y
        = some (f x y) ∧
      rasterPixAt (create_individual_backgrounds (srcImg f) [outA, outB] (0, 0) 1) 1 x y
        = some (f (1920 + x) y)) := by
  have hA : ∀ (img : Img) (o0 : OutputConfig) (rest : List OutputConfig)
      (off : Int × Int) (s : ℚ),
      create_individual_backgrounds img (o0 :: rest) off s =
        .ok ((o0 :: rest).map (fun o =>
          (o.name,
            specStretchRaster
              (resizeImg img (scaledDims img s).1 (scaledDims img s).2)
              (topoMaxX o0 rest - topoMinX o0 rest)
              (topoMaxY o0 rest - topoMinY o0 rest)
              (topoMinX o0 rest) (topoMinY o0 rest) off o))) := by
    intro img o0 rest off s
    simp only [create_individual_backgrounds, outputRaster_eq_spec]
  refine ⟨hA, ?_⟩
  intro f x y hx hy
  have h := hA (srcImg f) outA [outB] (0, 0) 1
  rw [scaledDims_src f] at h
  have hres : resizeImg (srcImg f) (3840, 1080).1 (3840, 1080).2 = srcImg f := by
    unfold resizeImg srcImg
    rw [if_pos ⟨rfl, rfl⟩]
  rw [hres] at h
  have hminx : topoMinX outA [outB] = 0 := by decide
  have hminy : topoMinY outA [outB] = 0 := by decide
  have hmaxx : topoMaxX outA [outB] = 3840 := by decide
  have hmaxy : topoMaxY outA [outB] = 1080 := by decide
  rw [hminx, hminy, hmaxx, hmaxy] at h
  rw [rasterPixAt, rasterPixAt, h]
  simp only [List.map_cons, List.map_nil, Except.toOption, Option.bind_some]
  constructor
  · show some ((specStretchRaster (srcImg f) (3840 - 0) (1080 - 0) 0 0 (0, 0) outA).pix x y)
      = some (f x y)
    rw [specStretchRaster_leftA f x y hx hy]
  · show some ((specStretchRaster (srcImg f) (3840 - 0) (1080 - 0) 0 0 (0, 0) outB).pix x y)
      = some (f (1920 + x) y)
    rw [specStretchRaster_rightB f x y hx hy]

/-- Witness for C1 at a concrete pixel of a concrete source image. -/
theorem stretch_mode_compositing_witness :
    rasterPixAt (create_individual_backgrounds (srcImg (fun x y => (x, y, 0)))
        [outA, outB] (0, 0) 1) 0 5 7 = some (5, 7, 0) ∧
    rasterPixAt (create_individual_backgrounds (srcImg (fun x y => (x, y, 0)))
        [outA, outB] (0, 0) 1) 1 5 7 = some (1925, 7, 0) := by
  have h := stretch_mode_compositing.2 (fun x y => (x, y, 0)) 5 7
    (by norm_num) (by norm_num)
  exact ⟨h.1, by rw [h.2]⟩

/-- C5 counterexample: in the fill branch of `MonitorWidget.on_draw`, with a
1920x1080 image on a 1920x1080 output, manual scale 1 and offset (10, 20),
the image's top-left corner is drawn at (-10, -20) — the offset is
subtracted — whereas the claimed placement `(outW − scaledW)/2 + offset.x`
would be (10, 20). -/
theorem fill_offset_sign_cex :
    on_draw_fill_point 1920 1080 1920 1080 1 (10, 20) 0 0 = (-10, -20) ∧
    ¬((-10 : ℚ) = (1920 - 1920 * 1) / 2 + 10) := by
  constructor
  · norm_num [on_draw_fill_point, on_draw_fill_scale, on_draw_fill_offset_calc,
      cairo_place_source]
  · norm_num

/-- C5 amended: fill-mode drawing scales the image by
`max(outW/imgW, outH/imgH) × manualScale` and places it centred and then
displaced by MINUS the offset: the top-left image corner lands at
`((outW − scaledW)/2 − offset.x, (outH − scaledH)/2 − offset.y)` and the
bottom-right corner at exactly `scaledW/scaledH` further, so the image
covers the whole output when the offset is zero. -/
theorem fill_mode_placement :
    ∀ (imgW imgH monW monH ms : ℚ) (off : ℚ × ℚ),
      on_draw_fill_scale imgW imgH monW monH ms ≠ 0 →
      on_draw_fill_point imgW imgH monW monH ms off 0 0 =
        ((monW - imgW * on_draw_fill_scale imgW imgH monW monH ms) / 2 - off.1,
         (monH - imgH * on_draw_fill_scale imgW imgH monW monH ms) / 2 - off.2) ∧
      on_draw_fill_point imgW imgH monW monH ms off imgW imgH =
        ((monW - imgW * on_draw_fill_scale imgW imgH monW monH ms) / 2 - off.1
            + imgW * on_draw_fill_scale imgW imgH monW monH ms,
         (monH - imgH * on_draw_fill_scale imgW imgH monW monH ms) / 2 - off.2
            + imgH * on_draw_fill_scale imgW imgH monW monH ms) := by
  intro imgW imgH monW monH ms off hs
  unfold on_draw_fill_point cairo_place_source on_draw_fill_offset_calc
  constructor
  · refine Prod.ext ?_ ?_ <;> dsimp only <;> field_simp <;> ring
  · refine Prod.ext ?_ ?_ <;> dsimp only <;> field_simp <;> ring

/-- Witness for the amended C5 at concrete parameters. -/
theorem fill_mode_placement_witness :
    on_draw_fill_scale 1920 1080 1920 1080 1 ≠ 0 ∧
    on_draw_fill_point 1920 1080 1920 1080 1 (10, 20) 0 0 =
      ((1920 - 1920 * on_draw_fill_scale 1920 1080 1920 1080 1) / 2 - 10,
       (1080 - 1080 * on_draw_fill_scale 1920 1080 1920 1080 1) / 2 - 20) :=
  ⟨by norm_num [on_draw_fill_scale],
   (fill_mode_placement 1920 1080 1920 1080 1 (10, 20)
      (by norm_num [on_draw_fill_scale])).1⟩

/-- C6: `restore_background` returns without invoking any compositor entry
point when there is no saved configuration, when the saved image path is
missing or empty, or when the file no longer exists; otherwise it issues the
compositor invocation carrying the stored mode, offset and scale together
with the topology that is current at restore time (whatever
`get_current_outputs()` returns then), not a cached raster. -/
theorem restore_behaviour :
    (∀ (fe : String → Bool) (cur : List OutputConfig),
      restore_background none fe cur = none) ∧
    (∀ (c : SavedConfigJson) (fe : String → Bool) (cur : List OutputConfig)
        (p : String),
      c.image_path = some p → p ≠ "" → fe p = false →
      restore_background (some c) fe cur = none) ∧
    (∀ (c : SavedConfigJson) (fe : String → Bool) (cur : List OutputConfig)
        (p : String),
      c.image_path = some p → p ≠ "" → fe p = true →
      restore_background (some c) fe cur =
        some (if c.mode.getD "stretched" = "stretched" then
          RestoreInvocation.stretched p (c.image_offset.getD (0, 0))
            (c.image_scale.getD 1) cur
        else
          RestoreInvocation.fitted p (c.mode.getD "stretched")
            (c.image_offset.getD (0, 0)) (c.image_scale.getD 1) cur)) := by
  refine ⟨fun _ _ => rfl, ?_, ?_⟩
  · intro c fe cur p hp hne hfe
    simp only [restore_background, hp]
    rw [if_neg hne, hfe]
    rfl
  · intro c fe cur p hp hne hfe
    simp only [restore_background, hp]
    rw [if_neg hne, hfe, apply_ite some]
    rfl

/-- Witness for C6: a stale path yields no invocation; an existing path
yields the fitted invocation with the stored parameters and the current
topology. -/
theorem restore_behaviour_witness :
    restore_background (some ⟨some "wall.png", some "fill", some (3, 4), some 2⟩)
      (fun _ => false) [outA] = none ∧
    restore_background (some ⟨some "wall.png", some "fill", some (3, 4), some 2⟩)
      (fun _ => true) [outA] =
      some (RestoreInvocation.fitted "wall.png" "fill" (3, 4) 2 [outA]) := by
  constructor
  · exact restore_behaviour.2.1 _ _ _ "wall.png" rfl (by decide) rfl
  · have h := restore_behaviour.2.2 ⟨some "wall.png", some "fill", some (3, 4), some 2⟩
      (fun _ => true) [outA] "wall.png" rfl (by decide) rfl
    rw [h]
    rfl

/-- The previously saved state used in the C7 scenario. -/
def fsPrev : String → Option String :=
  fun q => if q = "current_config.json" then some "previous" else none

/-- C7 counterexample: `save_background_config` opens the final path
`current_config.json` directly for truncating write (no temporary file, no
rename), so after the first step of a save the stored record is the empty
string — neither the previous state ("previous") nor the new record
("newdata").  A concurrent reader at that point observes a partially
written record, and a failed save has already destroyed the previous
state. -/
theorem save_nonatomic_cex :
    (save_background_config_ops "newdata").head?
      = some (FsOp.openTrunc "current_config.json") ∧
    runFsOps fsPrev ((save_background_config_ops "newdata").take 1)
      "current_config.json" = some "" ∧
    ("" : String) ≠ "previous" ∧ ("" : String) ≠ "newdata" :=
  ⟨rfl, rfl, by decide, by decide⟩

/-- C7 amended: `save_background_config` overwrites the prior state by
truncating `current_config.json` in place and then writing the new record;
a completed save leaves exactly the new record, but the write is not
atomic — between the truncation and the completed write the file holds the
empty (partial) record, so a concurrent reader can observe it and a failed
save loses the previous state (the exception is only caught and printed). -/
theorem save_write_discipline :
    ∀ (json : String) (fs : String → Option String),
      runFsOps fs (save_background_config_ops json) "current_config.json"
        = some json ∧
      runFsOps fs ((save_background_config_ops json).take 1)
        "current_config.json" = some "" := by
  intro json fs
  constructor
  · show some ("" ++ json) = some json
    rw [String.empty_append]
  · rfl

/-- C8 counterexample: applying the monitor configuration for [A, B] when
applying A fails attempts only A and stops — output B is never processed,
contradicting the claim that remaining outputs are still processed after a
failure. -/
theorem apply_abort_cex :
    on_apply_monitor_config (fun o => decide (o.name ≠ "A")) [outA, outB]
      = (["A"], false) ∧
    "B" ∉ (["A"] : List String) := by
  constructor
  · rfl
  · decide

/-- C8 amended: configuration apply is aborting, not accumulating: outputs
are processed in order until the first failure; the first failure is
reported (GUI error dialog / CLI exit) and the remaining outputs are not
processed.  Only when every apply succeeds is the whole list processed. -/
theorem apply_abort_behaviour :
    (∀ (applyOk : OutputConfig → Bool) (pre : List OutputConfig)
        (o : OutputConfig) (post : List OutputConfig),
      (∀ p ∈ pre, applyOk p = true) → applyOk o = false →
      on_apply_monitor_config applyOk (pre ++ o :: post)
        = (pre.map OutputConfig.name ++ [o.name], false)) ∧
    (∀ (applyOk : OutputConfig → Bool) (l : List OutputConfig),
      (∀ p ∈ l, applyOk p = true) →
      on_apply_monitor_config applyOk l = (l.map OutputConfig.name, true)) ∧
    (∀ (applyOk : OutputConfig → Bool) (inMap : String → Bool)
        (o : OutputConfig) (rest : List OutputConfig),
      inMap o.name = true → applyOk o = false →
      cli_apply_orientations applyOk inMap (o :: rest) = ([o.name], false)) := by
  refine ⟨?_, ?_, ?_⟩
  · intro applyOk pre o post hpre ho
    induction pre with
    | nil => simp [on_apply_monitor_config, ho]
    | cons p rest ih =>
      have hp := hpre p (List.mem_cons_self p rest)
      simp only [List.cons_append, on_apply_monitor_config, hp, if_true, List.append_eq]
      rw [ih (fun q hq => hpre q (List.mem_cons_of_mem p hq))]
      rfl
  · intro applyOk l hl
    induction l with
    | nil => rfl
    | cons p rest ih =>
      have hp := hl p (List.mem_cons_self p rest)
      simp only [on_apply_monitor_config, hp, if_true]
      rw [ih (fun q hq => hl q (List.mem_cons_of_mem p hq))]
      rfl
  · intro applyOk inMap o rest h1 h2
    simp [cli_apply_orientations, h1, h2]

/-- Witness for the amended C8: B succeeds, then A fails, and the attempt
list stops at A. -/
theorem apply_abort_behaviour_witness :
    on_apply_monitor_config (fun o => decide (o.name ≠ "A")) ([outB] ++ outA :: [])
      = ([outB].map OutputConfig.name ++ [outA.name], false) :=
  apply_abort_behaviour.1 (fun o => decide (o.name ≠ "A")) [outB] outA []
    (by decide) (by decide)

/-- C9 counterexample: a line `output DP-1 pos 0 0` that is NOT inside the
sentinel-delimited managed section (the file contains no sentinel at all) is
nevertheless removed by `save_config_file`, contradicting the claim that
every line outside the managed section is preserved verbatim. -/
theorem config_save_drops_output_lines_cex :
    save_config_lines (fun _ => "") ["output DP-1 pos 0 0", "bindsym a exec foo"] []
      = ["bindsym a exec foo", "", sentinelLine] ∧
    "output DP-1 pos 0 0" ∉ (["bindsym a exec foo", "", sentinelLine] : List String) := by
  constructor
  · decide
  · decide

theorem filter_config_lines_append_plain (pre rest : List String)
    (h : ∀ l ∈ pre, pyStrip l ≠ sentinelLine ∧
      pyStartsWith (pyStrip l) "output " = false) :
    filter_config_lines false (pre ++ rest) = pre ++ filter_config_lines false rest := by
  induction pre with
  | nil => rfl
  | cons a p ih =>
    have ha := h a (List.mem_cons_self a p)
    rw [List.cons_append, filter_config_lines]
    simp only [if_neg ha.1, ha.2, Bool.false_eq_true, if_false]
    rw [ih (fun q hq => h q (List.mem_cons_of_mem a hq))]
    rfl

theorem filter_config_lines_sentinel (b : Bool) (sline : String) (rest : List String)
    (h : pyStrip sline = sentinelLine) :
    filter_config_lines b (sline :: rest) = filter_config_lines true rest := by
  rw [filter_config_lines]
  simp [h]

theorem filter_config_lines_skip_section (sec post : List String)
    (h : ∀ l ∈ sec, pyStartsWith (pyStrip l) "output " = true ∨ pyStrip l = "") :
    filter_config_lines true (sec ++ post) = filter_config_lines true post := by
  induction sec with
  | nil => rfl
  | cons a s ih =>
    have ha := h a (List.mem_cons_self a s)
    have hns : pyStrip a ≠ sentinelLine := by
      intro hc
      rcases ha with h1 | h1
      · rw [hc] at h1
        exact absurd h1 (by decide)
      · rw [hc] at h1
        exact absurd h1 (by decide)
    rw [List.cons_append, filter_config_lines]
    simp only [if_neg hns]
    rcases ha with h1 | h1
    · simp only [h1, if_true]
      exact ih (fun q hq => h q (List.mem_cons_of_mem a hq))
    · have h2 : pyStartsWith (pyStrip a) "output " = false := by
        rw [h1]; decide
      simp only [h2, Bool.false_eq_true, if_false, h1, if_pos rfl]
      exact ih (fun q hq => h q (List.mem_cons_of_mem a hq))

theorem filter_config_lines_exit (t : String) (rest : List String)
    (h1 : pyStrip t ≠ sentinelLine)
    (h2 : pyStartsWith (pyStrip t) "output " = false)
    (h3 : pyStrip t ≠ "") :
    filter_config_lines true (t :: rest) = t :: filter_config_lines false rest := by
  rw [filter_config_lines]
  simp only [if_neg h1, h2, Bool.false_eq_true, if_false, if_neg h3]
  split <;> rfl

/-- C9 amended: `save_config_file` rewrites the sentinel-delimited managed
section and additionally removes every line that starts (after stripping)
with `output ` even when it lies outside the managed section; all other
lines outside the section are preserved verbatim and in order, followed by
a blank line, the sentinel, and the freshly rendered output lines.  A
backup with the `.backup` suffix is created (by copying the old file)
before the config file is rewritten.  Conjunct 1: any prefix free of
sentinel and output lines is preserved verbatim in front of whatever the
machine makes of the remainder.  Conjunct 2: for a file of the general
managed shape `pre ++ sentinel ++ section ++ terminator :: post` — where
the section consists of output and blank lines and the terminator is any
other non-sentinel line — the section is removed wholesale, the terminator
and the rest are processed outside the section again, and the rendered
section is appended at the end.  Conjunct 3: a sentinel anywhere (in or out
of a section) starts the managed section.  Conjunct 4: the backup copy
precedes the write of the new content. -/
theorem config_save_managed_section_rewrite :
    (∀ (showScale : ℚ → String) (pre rest : List String) (outputs : List OutputConfig),
      (∀ l ∈ pre, pyStrip l ≠ sentinelLine ∧
        pyStartsWith (pyStrip l) "output " = false) →
      save_config_lines showScale (pre ++ rest) outputs
        = pre ++ filter_config_lines false rest ++ ["", sentinelLine]
            ++ outputs.map (render_output_line showScale)) ∧
    (∀ (showScale : ℚ → String) (outputs : List OutputConfig)
        (pre : List String) (sline : String) (sec : List String)
        (t : String) (post : List String),
      (∀ l ∈ pre, pyStrip l ≠ sentinelLine ∧
        pyStartsWith (pyStrip l) "output " = false) →
      pyStrip sline = sentinelLine →
      (∀ l ∈ sec, pyStartsWith (pyStrip l) "output " = true ∨ pyStrip l = "") →
      pyStrip t ≠ sentinelLine →
      pyStartsWith (pyStrip t) "output " = false →
      pyStrip t ≠ "" →
      save_config_lines showScale (pre ++ sline :: (sec ++ t :: post)) outputs
        = pre ++ t :: filter_config_lines false post ++ ["", sentinelLine]
            ++ outputs.map (render_output_line showScale)) ∧
    (∀ (b : Bool) (sline : String) (rest : List String),
      pyStrip sline = sentinelLine →
      filter_config_lines b (sline :: rest) = filter_config_lines true rest) ∧
    (∀ (path c : String), (save_config_file_ops path c).head?
        = some (CfgOp.copyFile path (path ++ ".backup"))) := by
  refine ⟨?_, ?_, filter_config_lines_sentinel, fun _ _ => rfl⟩
  · intro showScale pre rest outputs h
    unfold save_config_lines
    rw [filter_config_lines_append_plain pre rest h]
  · intro showScale outputs pre sline sec t post hpre hs hsec h1 h2 h3
    unfold save_config_lines
    rw [filter_config_lines_append_plain pre _ hpre,
      filter_config_lines_sentinel false sline _ hs,
      filter_config_lines_skip_section sec _ hsec,
      filter_config_lines_exit t post h1 h2 h3]

/-- Witness for the amended C9 on a concrete config file that contains a
managed section: an unrelated line before the sentinel and the first
non-output, non-blank line after the old section are preserved, the old
section is replaced, and the new section is appended. -/
theorem config_save_managed_section_rewrite_witness :
    save_config_lines (fun _ => "1.0")
        (["bindsym a exec foo"] ++ sentinelLine ::
          (["output DP-1 res 1920x1080 pos 0 0 scale 1.0", ""] ++ "bar baz" :: []))
        [outA]
      = ["bindsym a exec foo"] ++ "bar baz" :: filter_config_lines false []
          ++ ["", sentinelLine] ++ [outA].map (render_output_line (fun _ => "1.0")) :=
  config_save_managed_section_rewrite.2.1 (fun _ => "1.0") [outA]
    ["bindsym a exec foo"] sentinelLine
    ["output DP-1 res 1920x1080 pos 0 0 scale 1.0", ""] "bar baz" []
    (by decide) (by decide) (by decide) (by decide) (by decide) (by decide)

/-- C10: safety of `BackgroundManager.cleanup`.  Every file whose deletion
is attempted is an image file (name ending in .png/.jpg/.jpeg) and at least
six image files (itself included) have a modification time at least as
recent as its own — i.e. only image files beyond the five most recently
modified ones are deleted; every non-image entry of the directory, in
particular `current_config.json`, survives every cleanup call unchanged,
whatever deletions succeed or fail (failures are swallowed, never
raised). -/
theorem cleanup_only_old_images :
    (∀ (entries : List (String × Nat)) (e : String × Nat),
      e ∈ cleanup_attempted entries →
        isBackgroundFile e.1 = true ∧
        6 ≤ ((cleanup_files entries).filter (fun q => decide (e.2 ≤ q.2))).length) ∧
    (∀ (delete_ok : String → Bool) (entries : List (String × Nat)) (e : String × Nat),
      e ∈ entries → isBackgroundFile e.1 = false →
      e ∈ cleanup_result delete_ok entries) ∧
    (∀ (delete_ok : String → Bool) (entries : List (String × Nat)) (m : Nat),
      ("current_config.json", m) ∈ entries →
      ("current_config.json", m) ∈ cleanup_result delete_ok entries) := by
  have hmem : ∀ (entries : List (String × Nat)) (e : String × Nat),
      e ∈ cleanup_attempted entries → isBackgroundFile e.1 = true := by
    intro entries e he
    have h1 : e ∈ cleanup_sorted entries := List.mem_of_mem_drop he
    have h2 : e ∈ cleanup_files entries := by
      rw [cleanup_sorted, List.mem_mergeSort] at h1
      exact h1
    exact (List.mem_filter.mp h2).2
  refine ⟨?_, ?_, ?_⟩
  · intro entries e he
    refine ⟨hmem entries e he, ?_⟩
    have hsorted : (cleanup_sorted entries).Pairwise (fun a b => decide (b.2 ≤ a.2) = true) := by
      apply List.sorted_mergeSort
      · intro a b c hab hbc
        simp only [decide_eq_true_eq] at *
        omega
      · intro a b
        simp only [Bool.or_eq_true, decide_eq_true_eq]
        omega
    have hperm : List.Perm (cleanup_sorted entries) (cleanup_files entries) :=
      List.mergeSort_perm (cleanup_files entries) _
    have hlen : ((cleanup_files entries).filter (fun q => decide (e.2 ≤ q.2))).length
        = ((cleanup_sorted entries).filter (fun q => decide (e.2 ≤ q.2))).length :=
      (List.Perm.length_eq (List.Perm.filter _ hperm)).symm
    rw [hlen]
    have hsplit : cleanup_sorted entries
        = (cleanup_sorted entries).take 5 ++ (cleanup_sorted entries).drop 5 :=
      (List.take_append_drop 5 (cleanup_sorted entries)).symm
    rw [hsplit, List.filter_append, List.length_append]
    have hrel : ∀ a ∈ (cleanup_sorted entries).take 5,
        ∀ b ∈ (cleanup_sorted entries).drop 5, b.2 ≤ a.2 := by
      have := hsplit ▸ hsorted
      rw [List.pairwise_append] at this
      intro a ha b hb
      simpa using this.2.2 a ha b hb
    have htake : ((cleanup_sorted entries).take 5).filter (fun q => decide (e.2 ≤ q.2))
        = (cleanup_sorted entries).take 5 := by
      apply List.filter_eq_self.mpr
      intro a ha
      simp only [decide_eq_true_eq]
      exact hrel a ha e he
    have hlen5 : ((cleanup_sorted entries).take 5).length = 5 := by
      rw [List.length_take]
      have : 5 < (cleanup_sorted entries).length := by
        by_contra hcon
        push_neg at hcon
        rw [cleanup_attempted, List.drop_eq_nil_of_le hcon] at he
        exact absurd he (List.not_mem_nil e)
      omega
    have hdrop1 : 1 ≤ (((cleanup_sorted entries).drop 5).filter
        (fun q => decide (e.2 ≤ q.2))).length := by
      apply List.length_pos.mpr
      intro hnil
      have : e ∈ ((cleanup_sorted entries).drop 5).filter (fun q => decide (e.2 ≤ q.2)) :=
        List.mem_filter.mpr ⟨he, by simp⟩
      rw [hnil] at this
      exact absurd this (List.not_mem_nil e)
    rw [htake, hlen5]
    omega
  · intro delete_ok entries e he hbg
    rw [cleanup_result]
    refine List.mem_filter.mpr ⟨he, ?_⟩
    have : e ∉ cleanup_attempted entries := by
      intro hc
      rw [hmem entries e hc] at hbg
      exact Bool.true_eq_false ▸ hbg
    simp [this]
  · intro delete_ok entries m he
    rw [cleanup_result]
    refine List.mem_filter.mpr ⟨he, ?_⟩
    have : ("current_config.json", m) ∉ cleanup_attempted entries := by
      intro hc
      have := hmem entries _ hc
      simp [isBackgroundFile, pyEndsWith] at this
    simp [this]

/-- Witness for C10: a non-image file in the backgrounds directory survives
cleanup. -/
theorem cleanup_only_old_images_witness :
    (("notes.txt", 3) : String × Nat) ∈ [("a.png", 1), (("notes.txt", 3) : String × Nat)] ∧
    isBackgroundFile "notes.txt" = false ∧
    (("notes.txt", 3) : String × Nat) ∈
      cleanup_result (fun _ => true) [("a.png", 1), ("notes.txt", 3)] :=
  ⟨by decide, by decide,
   cleanup_only_old_images.2.1 (fun _ => true) [("a.png", 1), ("notes.txt", 3)]
     ("notes.txt", 3) (by decide) (by decide)⟩
